import Mathlib

set_option maxRecDepth 8192

/-!
Verification of the FixBot CI-automation scripts
(`fixbot_comment.py`, `fixbot_fetch_logs.py`, `fixbot_generate_patch.py`)
against their natural-language specification.

The scripts are shallowly embedded: HTTP responses, the environment and the
file system are explicit arguments, Python runtime exceptions are an
`Except` error component, and exit codes / issued requests are recorded in
result structures.
-/

namespace FixBot

/-- Errors a Python script can raise at runtime; an uncaught one aborts the
process with a traceback and a nonzero exit status. -/
inductive PyErr where
  | fileNotFound
  | typeError
  | attributeError
deriving DecidableEq, Repr

/-- JSON values, the result of `response.json()` in the scripts.  Objects keep
their fields as an ordered association list, as Python dicts preserve
insertion order. -/
inductive Json where
  | null
  | bool (b : Bool)
  | num (n : Int)
  | str (s : String)
  | arr (elems : List Json)
  | obj (fields : List (String × Json))

/-- Keys of a JSON object (empty for non-objects). -/
def Json.keys : Json → List String
  | .obj kvs => kvs.map Prod.fst
  | _ => []

/-- Total observation of a field: Python `d.get(k)` on a value known to be a
dict; `Json.null` for a missing key or a non-object. -/
def Json.getD (j : Json) (k : String) : Json :=
  match j with
  | .obj kvs => (kvs.lookup k).getD Json.null
  | _ => Json.null

/-- Python `v.get(k)`: dictionary lookup with default `None`; raises
`AttributeError` when `v` is not a dict. -/
def pyGet (j : Json) (k : String) : Except PyErr Json :=
  match j with
  | .obj kvs => .ok ((kvs.lookup k).getD Json.null)
  | _ => .error .attributeError

/-- Membership of a key in a JSON object, Python `k in d`. -/
def Json.hasKey (j : Json) (k : String) : Bool := j.keys.contains k

/-! ### Credential resolution (fixbot_comment.py line 21, fixbot_fetch_logs.py line 23) -/

/-- Python truthiness of an optional string: `None` and `""` are falsy. -/
def truthy : Option String → Bool
  | none => false
  | some s => s != ""

/-- Python `x or y` on optional strings: `y` when `x` is falsy, else `x`. -/
def pyOrStr (x y : Option String) : Option String := if truthy x then x else y

/-- Embedding of `token = args.token or os.environ.get("GH_TOKEN") or
os.environ.get("GITHUB_TOKEN")` followed by the `if not token` falsiness
check shared by the comment poster and the log fetcher. -/
def resolveToken (argTok ghTok githubTok : Option String) : Option String :=
  let t := pyOrStr (pyOrStr argTok ghTok) githubTok
  if truthy t then t else none

/-- Claim-side reference definition: the first non-empty value in the order
explicit argument, GH_TOKEN, GITHUB_TOKEN. -/
def firstNonEmptyToken (argTok ghTok githubTok : Option String) : Option String :=
  ([argTok, ghTok, githubTok].filterMap id).find? (fun s => s != "")

/-! ### Comment poster (fixbot_comment.py, main, lines 13-33) -/

/-- Outcome of one HTTP request, as the scripts observe it: status code, raw
body text, and the body parsed as JSON. -/
structure HttpResponse where
  status : Nat
  text : String
  json : Json

/-- Observable outcome of a poster run: the process exit code, the number of
HTTP requests issued, the value whose URL was reported on success, and the
error-stream lines. -/
structure PosterRun where
  exitCode : Nat
  requests : Nat
  reported : Option Json
  stderr : List String

/-- Embedding of fixbot_comment.py `main` (lines 13-33).  The single POST's
outcome is the `resp` argument.  Exit 2 before any request when no credential
resolves; exit 1 with status and body on stderr when the status is not 200 or
201; otherwise report `r.json().get("html_url")` (an `AttributeError` escapes
when the 200/201 body is not a JSON object). -/
def fixbot_comment_main (argTok ghTok githubTok : Option String)
    (resp : HttpResponse) : Except PyErr PosterRun :=
  match resolveToken argTok ghTok githubTok with
  | none => .ok { exitCode := 2, requests := 0, reported := none,
                  stderr := ["Error: GH_TOKEN or --token required"] }
  | some _ =>
    if resp.status = 200 ∨ resp.status = 201 then
      (pyGet resp.json "html_url").map (fun url =>
        { exitCode := 0, requests := 1, reported := some url, stderr := [] })
    else
      .ok { exitCode := 1, requests := 1, reported := none,
            stderr := ["Failed to post comment: " ++ toString resp.status
                        ++ " " ++ resp.text] }

/-! ### Log fetcher (fixbot_fetch_logs.py, main, lines 15-68) -/

/-- Field names projected from the run metadata (line 51). -/
def runProjKeys : List String := ["id", "head_sha", "status", "conclusion", "event"]

/-- Field names projected from each job entry (lines 59-65). -/
def jobProjKeys : List String := ["id", "name", "status", "conclusion", "html_url"]

/-- Left-to-right traversal aborting at the first raised error, the shape of
every Python for-loop that builds a list. -/
def exceptMapList (f : α → Except PyErr β) : List α → Except PyErr (List β)
  | [] => .ok []
  | x :: xs => do
    let y ← f x
    let ys ← exceptMapList f xs
    pure (y :: ys)

/-- Projection of one job entry: `job.get(k)` for each of the five keys;
raises when a job entry is not a dict. -/
def jobProj (job : Json) : Except PyErr Json := do
  let fields ← exceptMapList (fun k => (pyGet job k).map (fun v => (k, v))) jobProjKeys
  pure (Json.obj fields)

/-- Embedding of the summary assembly of fixbot_fetch_logs.py (lines 31-65):
each of the two responses is independently replaced by an `error` object when
its status is not 200; the summary has the four fixed keys; `jobs_summary` is
filled only when the jobs body is a dict containing a `jobs` key, by iterating
the value (a `TypeError` escapes when that value is not a list). -/
def fetch_summary (runResp jobsResp : HttpResponse) : Except PyErr Json := do
  let runInfo := if runResp.status ≠ 200
    then Json.obj [("error", Json.str runResp.text)] else runResp.json
  let jobsInfo := if jobsResp.status ≠ 200
    then Json.obj [("error", Json.str jobsResp.text)] else jobsResp.json
  let runProj ← exceptMapList (fun k => (pyGet runInfo k).map (fun v => (k, v))) runProjKeys
  let jobsSummary ←
    if jobsInfo.hasKey "jobs" then
      match jobsInfo.getD "jobs" with
      | Json.arr jobs => exceptMapList jobProj jobs
      | _ => .error .typeError
    else
      pure []
  pure (Json.obj [("run", Json.obj runProj),
                  ("jobs_summary", Json.arr jobsSummary),
                  ("raw_run", runInfo),
                  ("raw_jobs", jobsInfo)])

/-- Observable outcome of a fetcher run: exit code, number of requests
issued, and the summary value serialized to the output file (if any). -/
structure FetchRun where
  exitCode : Nat
  requests : Nat
  written : Option Json

/-- Embedding of fixbot_fetch_logs.py `main`: exit 2 with no request when no
credential resolves; otherwise both requests are issued and the summary is
written. -/
def fixbot_fetch_main (argTok ghTok githubTok : Option String)
    (runResp jobsResp : HttpResponse) : Except PyErr FetchRun :=
  match resolveToken argTok ghTok githubTok with
  | none => .ok { exitCode := 2, requests := 0, written := none }
  | some _ =>
    (fetch_summary runResp jobsResp).map (fun s =>
      { exitCode := 0, requests := 2, written := some s })

/-! ### Regex scanning (fixbot_generate_patch.py, lines 72-88)

The generator uses four `re.findall` calls whose patterns all have the shape
literal, then a greedy character class `(...)+`, then a literal tail.  None
of the classes contains a character of its following literal tail, so the
greedy run is exactly the maximal run and no backtracking can occur; findall
is the leftmost non-overlapping scan below. -/

/-- Character class `[A-Za-z0-9_]` of the two module patterns, by code
point: uppercase letters, lowercase letters, digits, underscore. -/
def isWordChar (c : Char) : Bool :=
  (65 ≤ c.toNat && c.toNat ≤ 90) || (97 ≤ c.toNat && c.toNat ≤ 122)
    || (48 ≤ c.toNat && c.toNat ≤ 57) || c.toNat == 95

/-- Character class `[A-Za-z0-9_\-\.]` of the distribution pattern. -/
def isDistChar (c : Char) : Bool := isWordChar c || c.toNat == 45 || c.toNat == 46

/-- Character class `[A-Za-z0-9_\-\/]` of the header pattern. -/
def isHdrChar (c : Char) : Bool := isWordChar c || c.toNat == 45 || c.toNat == 47

/-- Python `str.lower()` on one ASCII character: add 32 to an uppercase code
point, keep anything else. -/
def pyCharLower (c : Char) : Char :=
  if 65 ≤ c.toNat ∧ c.toNat ≤ 90 then Char.ofNat (c.toNat + 32) else c

/-- Python `str.lower()`, restricted to its ASCII behaviour (every capture
the generator lowercases is drawn from an ASCII character class). -/
def pyLower (s : String) : String := ⟨s.data.map pyCharLower⟩

/-- Python whitespace stripped by `str.strip()`, restricted to the ASCII
whitespace characters. -/
def isPySpace (c : Char) : Bool :=
  c == ' ' || c == '\t' || c == '\n' || c == '\r' || c == '\x0b' || c == '\x0c'

/-- Python `str.strip()`: drop whitespace from both ends. -/
def pyStrip (s : String) : String :=
  ⟨((s.data.dropWhile isPySpace).reverse.dropWhile isPySpace).reverse⟩

/-- Claim-side character set `[a-z0-9_]` by code point: lowercase letters,
digits, underscore. -/
def isLowerWordChar (c : Char) : Bool :=
  (97 ≤ c.toNat && c.toNat ≤ 122) || (48 ≤ c.toNat && c.toNat ≤ 57) || c.toNat == 95

/-- A findall pattern of shape `lit (cls+ capTail) tail`: the capture group is
the greedy class run followed by the literal `capTail` (".h" for the header
pattern, empty for the module patterns), and `tail` is the uncaptured literal
after the group. -/
structure Pat where
  lit : List Char
  cls : Char → Bool
  capTail : List Char
  tail : List Char

/-- Remainder of `s` after the literal prefix `lit`, when it is a prefix. -/
def matchLit : List Char → List Char → Option (List Char)
  | [], s => some s
  | _ :: _, [] => none
  | l :: ls, c :: cs => if c = l then matchLit ls cs else none

/-- Attempt of the pattern at the head of `s`: returns the capture and the
remainder after the whole match. -/
def tryMatch (p : Pat) (s : List Char) : Option (List Char × List Char) :=
  match matchLit p.lit s with
  | none => none
  | some r1 =>
    if r1.takeWhile p.cls = [] then none
    else
      match matchLit p.capTail (r1.dropWhile p.cls) with
      | none => none
      | some r2 =>
        match matchLit p.tail r2 with
        | none => none
        | some r3 => some (r1.takeWhile p.cls ++ p.capTail, r3)

/-- Leftmost non-overlapping scan of `re.findall`, fuel-indexed by the input
length (each step consumes at least one character). -/
def findallAux (p : Pat) : Nat → List Char → List (List Char)
  | 0, _ => []
  | _ + 1, [] => []
  | fuel + 1, c :: rest =>
    match tryMatch p (c :: rest) with
    | some (cap, after) => cap :: findallAux p fuel after
    | none => findallAux p fuel rest

/-- All captures of the pattern in a string, in order. -/
def findall (p : Pat) (s : String) : List String :=
  (findallAux p s.data.length s.data).map (fun cs => ⟨cs⟩)

/-- Pattern of line 73: `ModuleNotFoundError: No module named '([A-Za-z0-9_]+)'`. -/
def patModuleNotFound : Pat :=
  { lit := "ModuleNotFoundError: No module named '".data
    cls := isWordChar, capTail := [], tail := "'".data }

/-- Pattern of line 75: `ImportError: No module named ([A-Za-z0-9_]+)`. -/
def patImportError : Pat :=
  { lit := "ImportError: No module named ".data
    cls := isWordChar, capTail := [], tail := [] }

/-- Pattern of line 79: `No matching distribution found for ([A-Za-z0-9_\-\.]+)`. -/
def patNoDistribution : Pat :=
  { lit := "No matching distribution found for ".data
    cls := isDistChar, capTail := [], tail := [] }

/-- Pattern of line 86:
`fatal error: ([A-Za-z0-9_\-\/]+\.h): No such file or directory`. -/
def patFatalHeader : Pat :=
  { lit := "fatal error: ".data
    cls := isHdrChar, capTail := ".h".data
    tail := ": No such file or directory".data }

/-! ### Missing-module set and missing-header list (lines 72-88) -/

/-- Code-point lexicographic comparison of character lists: Python's string
`<`, which `sorted` consults. -/
def dataLtB : List Char → List Char → Bool
  | _, [] => false
  | [], _ :: _ => true
  | c :: cs, d :: ds =>
    if c.toNat < d.toNat then true
    else if d.toNat < c.toNat then false
    else dataLtB cs ds

/-- Python string comparison. -/
def strLtB (a b : String) : Bool := dataLtB a.data b.data

/-- Ordered insertion without duplication: together with the fold below this
realises the Python `set` the three module loops insert into, read off in
`sorted` order (line 82). -/
def insSortDedup (x : String) : List String → List String
  | [] => [x]
  | y :: ys => if x = y then y :: ys
               else if strLtB x y then x :: y :: ys
               else y :: insSortDedup x ys

/-- Sorted deduplicated list of a list of strings: `sorted(set(l))`. -/
def sortedDedup (l : List String) : List String :=
  l.foldl (fun acc x => insSortDedup x acc) []

/-- Embedding of lines 72-82: the set `missing` collects the lowercased
captures of the two module patterns and the distribution pattern, and
`missing_list = sorted(missing)`. -/
def heurMissingList (logs : String) : List String :=
  sortedDedup (((findall patModuleNotFound logs
                  ++ findall patImportError logs)
                  ++ findall patNoDistribution logs).map pyLower)

/-- Embedding of lines 85-88: append each header capture unless already
present, preserving order of first appearance. -/
def heurHeaders (logs : String) : List String :=
  (findall patFatalHeader logs).foldl
    (fun acc hdr => if hdr ∈ acc then acc else acc ++ [hdr]) []

/-- Claim-side reference definition of order-preserving deduplication: keep
each element's first occurrence, erasing its later duplicates. -/
def keepFirst : List String → List String
  | [] => []
  | x :: xs => x :: keepFirst (xs.filter (fun y => y ≠ x))
termination_by l => l.length
decreasing_by
  simpa using Nat.lt_succ_of_le (List.length_filter_le _ _)

/-! ### Unified-diff synthesis

`make_update_file_diff` (line 28) calls the external library routine
`difflib.unified_diff` (context size 3, empty line terminator).  The library
is modelled here after its documented algorithm: matching blocks are maximal
common contiguous runs chosen earliest in `a` and then earliest in `b`,
refined recursively on both sides, merged when adjacent, and grouped with
three context lines.  The model omits the library's autojunk heuristic,
which only activates for inputs of at least 200 lines containing an element
occurring in more than one percent of them. -/

/-- Length of the common prefix of two line lists. -/
def cpl : List String → List String → Nat
  | a :: as, b :: bs => if a = b then cpl as bs + 1 else 0
  | _, _ => 0

/-- Length of the match starting at `(i, j)`, capped to the current ranges. -/
def flmVal (a b : List String) (ahi bhi i j : Nat) : Nat :=
  min (cpl (a.drop i) (b.drop j)) (min (ahi - i) (bhi - j))

/-- One step of the longest-match scan: replace the best block only on a
strictly longer match. -/
def flmStep (a b : List String) (ahi bhi : Nat) (best : Nat × Nat × Nat)
    (p : Nat × Nat) : Nat × Nat × Nat :=
  if best.2.2 < flmVal a b ahi bhi p.1 p.2
  then (p.1, p.2, flmVal a b ahi bhi p.1 p.2) else best

/-- Longest matching block within the given ranges, picked earliest in `a`
and then earliest in `b` among the maximal ones — the contract of the
matcher's longest-match routine, realised as a lexicographic scan keeping the
first strict maximum. -/
def flm (a b : List String) (alo ahi blo bhi : Nat) : Nat × Nat × Nat :=
  ((List.range' alo (ahi - alo)).flatMap (fun i =>
      (List.range' blo (bhi - blo)).map (fun j => (i, j)))).foldl
    (flmStep a b ahi bhi) (alo, blo, 0)

/-- Recursive refinement around each longest match, producing the ordered
matching blocks of the two ranges.  The fuel exceeds the recursion depth,
which shrinks the ranges strictly. -/
def mbAux (a b : List String) : Nat → Nat × Nat × Nat × Nat → List (Nat × Nat × Nat)
  | 0, _ => []
  | fuel + 1, (alo, ahi, blo, bhi) =>
    let m := flm a b alo ahi blo bhi
    if m.2.2 = 0 then []
    else
      mbAux a b fuel (alo, m.1, blo, m.2.1)
        ++ m :: mbAux a b fuel (m.1 + m.2.2, ahi, m.2.1 + m.2.2, bhi)

/-- Merge adjacent matching blocks, as the matcher does before returning. -/
def mergeBlocks : Nat × Nat × Nat → List (Nat × Nat × Nat) → List (Nat × Nat × Nat)
  | cur, [] => if 0 < cur.2.2 then [cur] else []
  | cur, blk :: rest =>
    if cur.1 + cur.2.2 = blk.1 ∧ cur.2.1 + cur.2.2 = blk.2.1 then
      mergeBlocks (cur.1, cur.2.1, cur.2.2 + blk.2.2) rest
    else
      (if 0 < cur.2.2 then [cur] else []) ++ mergeBlocks blk rest

/-- Matching blocks of two line lists, ending with the zero-length sentinel. -/
def matchingBlocks (a b : List String) : List (Nat × Nat × Nat) :=
  mergeBlocks (0, 0, 0) (mbAux a b (a.length + b.length + 1) (0, a.length, 0, b.length))
    ++ [(a.length, b.length, 0)]

/-- Edit-operation kinds of the matcher. -/
inductive Tag where
  | replace
  | delete
  | insert
  | equal
deriving DecidableEq, Repr

/-- One edit operation over half-open index ranges of the two line lists. -/
structure Opcode where
  tag : Tag
  i1 : Nat
  i2 : Nat
  j1 : Nat
  j2 : Nat
deriving DecidableEq, Repr

/-- Opcodes from matching blocks: a gap before a block becomes a replace,
delete or insert, and each positive-size block an equal. -/
def opcodesAux : Nat × Nat → List (Nat × Nat × Nat) → List Opcode
  | _, [] => []
  | (i, j), (ai, bj, size) :: rest =>
    let pre : List Opcode :=
      if i < ai ∧ j < bj then [⟨.replace, i, ai, j, bj⟩]
      else if i < ai then [⟨.delete, i, ai, j, bj⟩]
      else if j < bj then [⟨.insert, i, ai, j, bj⟩]
      else []
    pre ++ (if 0 < size then [⟨.equal, ai, ai + size, bj, bj + size⟩] else [])
      ++ opcodesAux (ai + size, bj + size) rest

/-- All opcodes of the comparison of `a` with `b`. -/
def get_opcodes (a b : List String) : List Opcode := opcodesAux (0, 0) (matchingBlocks a b)

/-- Truncate a leading equal opcode to its last `n` lines. -/
def trimHead (n : Nat) : List Opcode → List Opcode
  | [] => []
  | c :: rest =>
    if c.tag = .equal then
      { c with i1 := max c.i1 (c.i2 - n), j1 := max c.j1 (c.j2 - n) } :: rest
    else c :: rest

/-- Truncate a trailing equal opcode to its first `n` lines. -/
def trimLast (n : Nat) (l : List Opcode) : List Opcode :=
  match l.getLast? with
  | some c =>
    if c.tag = .equal then
      l.dropLast ++ [{ c with i2 := min c.i2 (c.i1 + n), j2 := min c.j2 (c.j1 + n) }]
    else l
  | none => l

/-- Grouping loop: split at interior equal runs longer than `nn = 2 n`,
keeping `n` context lines on each side; a final group consisting of one
equal opcode alone is dropped. -/
def groupAux (nn n : Nat) : List Opcode → List Opcode → List (List Opcode)
  | group, [] =>
    if group ≠ [] ∧ ¬(group.length = 1 ∧ group.head?.map Opcode.tag = some .equal)
    then [group] else []
  | group, c :: rest =>
    if c.tag = .equal ∧ nn < c.i2 - c.i1 then
      (group ++ [{ c with i2 := min c.i2 (c.i1 + n), j2 := min c.j2 (c.j1 + n) }])
        :: groupAux nn n [{ c with i1 := max c.i1 (c.i2 - n), j1 := max c.j1 (c.j2 - n) }] rest
    else groupAux nn n (group ++ [c]) rest

/-- Grouped opcodes with `n` lines of context. -/
def get_grouped_opcodes (a b : List String) (n : Nat) : List (List Opcode) :=
  let codes := get_opcodes a b
  let codes := if codes = [] then [⟨Tag.equal, 0, 1, 0, 1⟩] else codes
  groupAux (n + n) n [] (trimLast n (trimHead n codes))

/-- Hunk range rendering: start plus one and length, with the two special
cases for length one and length zero. -/
def formatRangeUnified (start stop : Nat) : String :=
  if stop - start = 1 then toString (start + 1)
  else if stop - start = 0 then toString start ++ ",0"
  else toString (start + 1) ++ "," ++ toString (stop - start)

/-- Half-open slice `l[i:j]`. -/
def slice (l : List String) (i j : Nat) : List String := (l.drop i).take (j - i)

/-- Body lines of one group: context with a space prefix, removals with a
minus, insertions with a plus. -/
def groupLines (a b : List String) (group : List Opcode) : List String :=
  group.flatMap (fun c =>
    match c.tag with
    | .equal => (slice a c.i1 c.i2).map (fun line => " " ++ line)
    | .replace =>
      (slice a c.i1 c.i2).map (fun line => "-" ++ line)
        ++ (slice b c.j1 c.j2).map (fun line => "+" ++ line)
    | .delete => (slice a c.i1 c.i2).map (fun line => "-" ++ line)
    | .insert => (slice b c.j1 c.j2).map (fun line => "+" ++ line))

/-- Hunk header of one group. -/
def hunkHeader (group : List Opcode) : String :=
  match group.head?, group.getLast? with
  | some first, some last =>
    "@@ -" ++ formatRangeUnified first.i1 last.i2 ++ " +"
      ++ formatRangeUnified first.j1 last.j2 ++ " @@"
  | _, _ => ""

/-- Lines yielded by `difflib.unified_diff(a, b, fromfile, tofile,
lineterm="")` with three context lines: the two file headers before the first
group, then each group's hunk header and body. -/
def unified_diff_lines (a b : List String) (fromfile tofile : String) : List String :=
  let groups := get_grouped_opcodes a b 3
  (if groups = [] then [] else ["--- " ++ fromfile, "+++ " ++ tofile])
    ++ groups.flatMap (fun g => hunkHeader g :: groupLines a b g)

/-! ### Patch fragments and the heuristic path (fixbot_generate_patch.py) -/

/-- File system: a partial map from paths to file contents.  Path strings are
compared exactly; `os.path.join(root, name)` is modelled as
`root ++ "/" ++ name`, faithful for roots without a trailing slash. -/
def FS : Type := String → Option String

/-- Whole-file write (also models append-to-removed and append-to-fresh). -/
def fsSet (p : String) (v : String) (fs : FS) : FS :=
  fun q => if q = p then some v else fs q

/-- File removal; removing an absent path is the identity, matching the
guarded `os.remove` of lines 92-93. -/
def fsRemove (p : String) (fs : FS) : FS :=
  fun q => if q = p then none else fs q

/-- Model of `os.path.join` for the fixed relative names the script joins. -/
def pyJoin (root name : String) : String := root ++ "/" ++ name

/-- Splitting a character list at every newline. -/
def splitOnNl (acc : List Char) : List Char → List (List Char)
  | [] => [acc.reverse]
  | c :: rest =>
    if c = '\n' then acc.reverse :: splitOnNl [] rest else splitOnNl (c :: acc) rest

/-- Python `str.splitlines()` restricted to newline separators: split on the
newline character, without a trailing empty piece. -/
def pySplitlines (s : String) : List String :=
  let parts := splitOnNl [] s.data
  (if parts.getLast? = some [] then parts.dropLast else parts).map (fun cs => ⟨cs⟩)

/-- Python `line.rstrip("\n")`. -/
def pyRstripNl (s : String) : String := ⟨(s.data.reverse.dropWhile (· = '\n')).reverse⟩

/-- A file-level diff fragment: a new-file diff against /dev/null, or an
update diff of existing lines against extended lines. -/
inductive Frag where
  | newFile (relpath : String) (lines : List String)
  | update (relpath : String) (old new : List String)
deriving DecidableEq, Repr

/-- Relative path a fragment targets. -/
def Frag.relpath : Frag → String
  | .newFile rel _ => rel
  | .update rel _ _ => rel

/-- Lines of `make_new_file_diff` (lines 21-25): three-line header against
/dev/null, then every new line with a plus prefix. -/
def make_new_file_diff_lines (relpath : String) (newLines : List String) : List String :=
  ["--- /dev/null", "+++ b/" ++ relpath,
   "@@ -0,0 +1," ++ toString newLines.length ++ " @@"]
    ++ newLines.map (fun line => "+" ++ pyRstripNl line)

/-- Lines of a fragment as the script produces them. -/
def Frag.renderLines : Frag → List String
  | .newFile rel lines => make_new_file_diff_lines rel lines
  | .update rel old new => unified_diff_lines old new ("a/" ++ rel) ("b/" ++ rel)

/-- Text of a fragment: lines joined by newlines with one trailing newline,
as both diff constructors do. -/
def Frag.render (f : Frag) : String :=
  String.intercalate "\n" f.renderLines ++ "\n"

/-- Embedding of `write_requirements_patch` (lines 33-53) over the content of
the dependency-list file (present or absent): no fragment when nothing is
missing; with an existing file, append the modules not matching any trimmed
existing line, or nothing when all are present; otherwise a new-file diff of
the missing list. -/
def write_requirements_patch (reqContent : Option String)
    (missingModules : List String) : Option Frag :=
  if missingModules = [] then none
  else
    match reqContent with
    | some content =>
      let old := pySplitlines content
      let added := missingModules.filter (fun m => m ∉ old.map pyStrip)
      if added = [] then none
      else some (.update "requirements.txt" old (old ++ added))
    | none => some (.newFile "requirements.txt" missingModules)

/-- Embedding of `write_system_deps_patch` (lines 56-64): always a new-file
diff of the advisory file, with no existence check. -/
def write_system_deps_patch (missingHeaders : List String) : Option Frag :=
  if missingHeaders = [] then none
  else some (.newFile ".fixbot_system_deps.txt"
    ("The following headers were reported missing during CI/compile:" :: missingHeaders))

/-- The placeholder fragment of lines 99-104. -/
def noticeFrag : Frag :=
  .newFile ".fixbot_notice.txt"
    ["FixBot could not identify an automatic fix.", "See .fixbot_logs.txt for details."]

/-- Fragments appended to the output, in order: the requirements fragment,
then the system-deps fragment, or the notice fragment when neither wrote. -/
def heurFrags (reqContent : Option String)
    (missingModules missingHeaders : List String) : List Frag :=
  let frags := (write_requirements_patch reqContent missingModules).toList
    ++ (write_system_deps_patch missingHeaders).toList
  if frags = [] then [noticeFrag] else frags

/-- Full text written to the output patch for a given log text and
dependency-file content. -/
def heurText (logs : String) (reqContent : Option String) : String :=
  String.join ((heurFrags reqContent (heurMissingList logs) (heurHeaders logs)).map
    Frag.render)

/-- Embedding of `heuristics_make_patch` (lines 67-104): read the log file
(an uncaught `FileNotFoundError` when absent), remove any previous output,
then write the concatenated fragments; the dependency file is consulted after
the output removal. -/
def heuristics_make_patch (fs : FS) (logsPath repoRoot outPath : String) :
    Except PyErr FS :=
  match fs logsPath with
  | none => .error .fileNotFound
  | some logs =>
    let fs1 := fsRemove outPath fs
    .ok (fsSet outPath (heurText logs (fs1 (pyJoin repoRoot "requirements.txt"))) fs1)

/-- Embedding of the generator's `main` (lines 107-142).  The generative path
is parametrised by `gen`, the text a successful model call returns; every
failure inside that path (missing key, missing log file, exception, empty
stripped text) falls through to the heuristics.  The result pairs the final
file system with the exit code. -/
def generator_main (gen : Option String) (openaiKey : Option String) (fs : FS)
    (logsPath repoRoot outPath : String) : Except PyErr (FS × Nat) :=
  let genText : Option String :=
    if truthy openaiKey then
      match fs logsPath, gen with
      | some _, some t => if pyStrip t ≠ "" then some (pyStrip t) else none
      | _, _ => none
    else none
  match genText with
  | some t => .ok (fsSet outPath t fs, 0)
  | none => (heuristics_make_patch fs logsPath repoRoot outPath).map (fun f => (f, 0))

/-- Added lines of a rendered diff: the text after the plus sign on each line
starting with one plus, the `+++` file header excluded. -/
def isPlusLine (s : String) : Bool :=
  (s.data.take 1 == ['+']) && (s.data.take 3 != ['+', '+', '+'])

/-- Added lines of a diff given as its list of lines. -/
def diffAddedLines (lines : List String) : List String :=
  (lines.filter isPlusLine).map (fun l => ⟨l.data.drop 1⟩)

/-- Shape condition under which Python can iterate the jobs body: when it is
a dict containing a `jobs` key, that key holds a list whose elements are
dicts.  Anything else with status 200 makes the loop of lines 57-65 raise. -/
def jobsIterable : Json → Prop
  | Json.obj kvs =>
      (Json.obj kvs).hasKey "jobs" = true →
        ∃ jobs, (Json.obj kvs).getD "jobs" = Json.arr jobs
          ∧ ∀ j ∈ jobs, ∃ f, j = Json.obj f
  | _ => True

/-- The insertion-ordered invariant used below. -/
def SortedLt (l : List String) : Prop := l.Pairwise (fun a b => strLtB a b = true)


/-- Claim-side: the missing modules not equal, by exact string match, to any
trimmed line of the existing dependency-list content. -/
def reqAdded (missing : List String) (content : String) : List String :=
  missing.filter (fun m => m ∉ (pySplitlines content).map pyStrip)

/-! ## Theorems -/

/-- Projecting a list of keys out of a JSON object never raises and yields
the pointwise lookups. -/
theorem mapM_pyGet_obj (keys : List String) (kvs : List (String × Json)) :
    exceptMapList (fun k => (pyGet (Json.obj kvs) k).map (fun v => (k, v))) keys =
      .ok (keys.map (fun k => (k, (kvs.lookup k).getD Json.null))) := by
  induction keys with
  | nil => rfl
  | cons k ks ih => simp only [exceptMapList, ih]; rfl

/-- Job projection of a dict entry never raises. -/
theorem jobProj_obj (f : List (String × Json)) :
    jobProj (Json.obj f) =
      .ok (Json.obj (jobProjKeys.map (fun k => (k, (f.lookup k).getD Json.null)))) := by
  simp [jobProj, mapM_pyGet_obj]

/-- Mapping the job projection over a list of dict entries never raises. -/
theorem mapM_jobProj_ok (jobs : List Json) (h : ∀ j ∈ jobs, ∃ f, j = Json.obj f) :
    ∃ l, exceptMapList jobProj jobs = .ok l := by
  induction jobs with
  | nil => exact ⟨[], rfl⟩
  | cons j js ih =>
    obtain ⟨f, rfl⟩ := h j (by simp)
    obtain ⟨l, hl⟩ := ih (fun x hx => h x (by simp [hx]))
    exact ⟨_, by simp [exceptMapList, jobProj_obj, hl]; rfl⟩

/-- C9: both the comment poster and the log fetcher resolve the credential as
the first non-empty value among the explicit `--token` argument, the GH_TOKEN
environment variable and the GITHUB_TOKEN environment variable; when all
three are empty or absent, each exits with code 2 without issuing any
request. -/
theorem C9_credential_chain :
    (∀ argTok ghTok githubTok,
        resolveToken argTok ghTok githubTok = firstNonEmptyToken argTok ghTok githubTok)
    ∧ (∀ argTok ghTok githubTok resp, resolveToken argTok ghTok githubTok = none →
        fixbot_comment_main argTok ghTok githubTok resp =
          .ok ⟨2, 0, none, ["Error: GH_TOKEN or --token required"]⟩)
    ∧ (∀ argTok ghTok githubTok runResp jobsResp,
        resolveToken argTok ghTok githubTok = none →
        fixbot_fetch_main argTok ghTok githubTok runResp jobsResp = .ok ⟨2, 0, none⟩) := by
  refine ⟨?_, ?_, ?_⟩
  · intro a g gh
    rcases a with _ | a <;> rcases g with _ | g <;> rcases gh with _ | gh
    · rfl
    · cases hgh : (gh != "") <;>
        simp [resolveToken, pyOrStr, truthy, firstNonEmptyToken, hgh]
    · cases hg : (g != "") <;>
        simp [resolveToken, pyOrStr, truthy, firstNonEmptyToken, hg]
    · cases hg : (g != "") <;> cases hgh : (gh != "") <;>
        simp [resolveToken, pyOrStr, truthy, firstNonEmptyToken, hg, hgh]
    · cases ha : (a != "") <;>
        simp [resolveToken, pyOrStr, truthy, firstNonEmptyToken, ha]
    · cases ha : (a != "") <;> cases hgh : (gh != "") <;>
        simp [resolveToken, pyOrStr, truthy, firstNonEmptyToken, ha, hgh]
    · cases ha : (a != "") <;> cases hg : (g != "") <;>
        simp [resolveToken, pyOrStr, truthy, firstNonEmptyToken, ha, hg]
    · cases ha : (a != "") <;> cases hg : (g != "") <;> cases hgh : (gh != "") <;>
        simp [resolveToken, pyOrStr, truthy, firstNonEmptyToken, ha, hg, hgh]
  · intro a g gh resp h
    simp [fixbot_comment_main, h]
  · intro a g gh r1 r2 h
    simp [fixbot_fetch_main, h]

/-- Witness for C9 at a concrete all-falsy environment. -/
theorem C9_credential_chain_witness :
    resolveToken none (some "") none = none ∧
    fixbot_comment_main none (some "") none ⟨200, "", Json.obj []⟩ =
      .ok ⟨2, 0, none, ["Error: GH_TOKEN or --token required"]⟩ :=
  ⟨rfl, C9_credential_chain.2.1 none (some "") none ⟨200, "", Json.obj []⟩ rfl⟩

/-- C2 counterexample: 202 is a 2xx status code, yet the poster treats every
status other than 200 and 201 as a failure and exits with code 1. -/
theorem C2_counterexample :
    fixbot_comment_main (some "tok") none none ⟨202, "Accepted", Json.obj []⟩ =
      .ok ⟨1, 1, none, ["Failed to post comment: 202 Accepted"]⟩ := rfl

/-- C2 (amended): with a resolvable credential, a response with status 200 or
201 whose body is a JSON object yields exit 0 reporting the body's html_url
field; any other status yields exit 1 with the status code and body on
stderr; with no resolvable credential the poster exits with code 2 before
issuing any request. -/
theorem C2_poster_statuses (argTok ghTok githubTok : Option String) (resp : HttpResponse) :
    ((∃ t, resolveToken argTok ghTok githubTok = some t) →
      ((resp.status = 200 ∨ resp.status = 201) →
        ∀ kvs, resp.json = Json.obj kvs →
          fixbot_comment_main argTok ghTok githubTok resp =
            .ok ⟨0, 1, some (resp.json.getD "html_url"), []⟩)
      ∧ (¬(resp.status = 200 ∨ resp.status = 201) →
          fixbot_comment_main argTok ghTok githubTok resp =
            .ok ⟨1, 1, none, ["Failed to post comment: " ++ toString resp.status
                                ++ " " ++ resp.text]⟩))
    ∧ (resolveToken argTok ghTok githubTok = none →
        fixbot_comment_main argTok ghTok githubTok resp =
          .ok ⟨2, 0, none, ["Error: GH_TOKEN or --token required"]⟩) := by
  constructor
  · rintro ⟨t, ht⟩
    constructor
    · intro hs kvs hkvs
      simp [fixbot_comment_main, ht, hs, hkvs, pyGet, Json.getD, Except.map]
    · intro hs
      simp [fixbot_comment_main, ht, hs]
  · intro h
    simp [fixbot_comment_main, h]

/-- Witness for C2 at a concrete token and 201 response. -/
theorem C2_poster_statuses_witness :
    fixbot_comment_main (some "t") none none
        ⟨201, "b", Json.obj [("html_url", Json.str "u")]⟩ =
      .ok ⟨0, 1, some ((Json.obj [("html_url", Json.str "u")]).getD "html_url"), []⟩ :=
  ((C2_poster_statuses (some "t") none none
      ⟨201, "b", Json.obj [("html_url", Json.str "u")]⟩).1
    ⟨"t", rfl⟩).1 (Or.inr rfl) [("html_url", Json.str "u")] rfl

/-- C4 counterexample: a jobs response with status 200 whose body is the
object with `jobs` mapped to null makes the fetcher raise a TypeError while
iterating, so nothing is written at all. -/
theorem C4_counterexample :
    fetch_summary ⟨404, "nf", Json.null⟩ ⟨200, "ok", Json.obj [("jobs", Json.null)]⟩ =
      .error .typeError := rfl

/-- C4 (amended): provided a 200 run body is a JSON object and a 200 jobs
body is iterable (when it is a dict containing `jobs`, that key holds a list
of dicts), the written summary has exactly the keys run, jobs_summary,
raw_run and raw_jobs, and whenever the jobs status is not 200, jobs_summary
is the empty list and raw_jobs carries an `error` key. -/
theorem C4_fetch_keys (runResp jobsResp : HttpResponse)
    (hrun : runResp.status = 200 → ∃ kvs, runResp.json = Json.obj kvs)
    (hjobs : jobsResp.status = 200 → jobsIterable jobsResp.json) :
    ∃ s, fetch_summary runResp jobsResp = .ok s
      ∧ s.keys = ["run", "jobs_summary", "raw_run", "raw_jobs"]
      ∧ (jobsResp.status ≠ 200 →
          s.getD "jobs_summary" = Json.arr []
            ∧ (s.getD "raw_jobs").hasKey "error" = true) := by
  have hRunInfo : ∃ kvs, (if runResp.status ≠ 200
      then Json.obj [("error", Json.str runResp.text)] else runResp.json) = Json.obj kvs := by
    by_cases h : runResp.status = 200
    · obtain ⟨kvs, hk⟩ := hrun h
      exact ⟨kvs, by simp [h, hk]⟩
    · exact ⟨[("error", Json.str runResp.text)], by simp [h]⟩
  obtain ⟨rkvs, hr⟩ := hRunInfo
  by_cases hj : jobsResp.status = 200
  · by_cases hkey : jobsResp.json.hasKey "jobs" = true
    · obtain ⟨fields, hJson⟩ : ∃ fields, jobsResp.json = Json.obj fields := by
        rcases hsh : jobsResp.json with _ | b | n | str | elems | fields
        · rw [hsh] at hkey; exact absurd hkey (by simp [Json.hasKey, Json.keys])
        · rw [hsh] at hkey; exact absurd hkey (by simp [Json.hasKey, Json.keys])
        · rw [hsh] at hkey; exact absurd hkey (by simp [Json.hasKey, Json.keys])
        · rw [hsh] at hkey; exact absurd hkey (by simp [Json.hasKey, Json.keys])
        · rw [hsh] at hkey; exact absurd hkey (by simp [Json.hasKey, Json.keys])
        · exact ⟨fields, rfl⟩
      have hit := hjobs hj
      rw [hJson] at hit hkey
      obtain ⟨jobs, hjv, hjobsObj⟩ := hit hkey
      obtain ⟨l, hl⟩ := mapM_jobProj_ok jobs hjobsObj
      have heq : fetch_summary runResp jobsResp = .ok (Json.obj
          [("run", Json.obj (runProjKeys.map fun k => (k, (rkvs.lookup k).getD Json.null))),
           ("jobs_summary", Json.arr l),
           ("raw_run", Json.obj rkvs),
           ("raw_jobs", Json.obj fields)]) := by
        simp [fetch_summary, hj, hJson, hr, mapM_pyGet_obj, hkey, hjv, hl]
        rfl
      exact ⟨_, heq, rfl, fun hne => absurd hj hne⟩
    · have heq : fetch_summary runResp jobsResp = .ok (Json.obj
          [("run", Json.obj (runProjKeys.map fun k => (k, (rkvs.lookup k).getD Json.null))),
           ("jobs_summary", Json.arr []),
           ("raw_run", Json.obj rkvs),
           ("raw_jobs", jobsResp.json)]) := by
        simp [fetch_summary, hj, hr, mapM_pyGet_obj, hkey]
      exact ⟨_, heq, rfl, fun hne => absurd hj hne⟩
  · have heq : fetch_summary runResp jobsResp = .ok (Json.obj
        [("run", Json.obj (runProjKeys.map fun k => (k, (rkvs.lookup k).getD Json.null))),
         ("jobs_summary", Json.arr []),
         ("raw_run", Json.obj rkvs),
         ("raw_jobs", Json.obj [("error", Json.str jobsResp.text)])]) := by
      simp [fetch_summary, hj, hr, mapM_pyGet_obj, Json.hasKey, Json.keys]
    exact ⟨_, heq, rfl, fun _ => ⟨rfl, rfl⟩⟩

/-- Witness for C4 at a concrete pair of failed responses. -/
theorem C4_fetch_keys_witness :
    (∃ s, fetch_summary ⟨500, "boom", Json.null⟩ ⟨502, "bad", Json.null⟩ = .ok s
      ∧ s.keys = ["run", "jobs_summary", "raw_run", "raw_jobs"]
      ∧ ((502 : Nat) ≠ 200 →
          s.getD "jobs_summary" = Json.arr []
            ∧ (s.getD "raw_jobs").hasKey "error" = true)) :=
  C4_fetch_keys ⟨500, "boom", Json.null⟩ ⟨502, "bad", Json.null⟩
    (fun h => absurd h (by decide)) (fun h => absurd h (by decide))

/-! ### Lemmas on the missing-module set and missing-header list -/

/-- Code-point comparison is irreflexive. -/
theorem dataLtB_irrefl : ∀ l : List Char, dataLtB l l = false
  | [] => rfl
  | c :: cs => by simp [dataLtB, dataLtB_irrefl cs]

/-- Code-point comparison is transitive. -/
theorem dataLtB_trans : ∀ (a b c : List Char),
    dataLtB a b = true → dataLtB b c = true → dataLtB a c = true := by
  intro a
  induction a with
  | nil =>
    intro b c hab hbc
    cases c with
    | nil =>
      cases b with
      | nil => simp [dataLtB] at hab
      | cons d ds => simp [dataLtB] at hbc
    | cons z zs => simp [dataLtB]
  | cons x xs ih =>
    intro b c hab hbc
    cases b with
    | nil => simp [dataLtB] at hab
    | cons y ys =>
      cases c with
      | nil => simp [dataLtB] at hbc
      | cons z zs =>
        simp only [dataLtB] at hab hbc ⊢
        split_ifs at hab hbc ⊢ <;>
          first
          | rfl
          | (exact ih ys zs hab hbc)
          | simp_all
        all_goals omega

/-- Distinct lists compare in one direction or the other. -/
theorem dataLtB_connex : ∀ (a b : List Char),
    a ≠ b → dataLtB a b = false → dataLtB b a = true := by
  intro a
  induction a with
  | nil =>
    intro b hne hf
    cases b with
    | nil => exact absurd rfl hne
    | cons d ds => simp [dataLtB] at hf
  | cons x xs ih =>
    intro b hne hf
    cases b with
    | nil => simp [dataLtB]
    | cons y ys =>
      simp only [dataLtB] at hf ⊢
      by_cases h1 : x.toNat < y.toNat
      · rw [if_pos h1] at hf
        exact absurd hf (by simp)
      · by_cases h2 : y.toNat < x.toNat
        · rw [if_pos h2]
        · rw [if_neg h1, if_neg h2] at hf
          rw [if_neg h2, if_neg h1]
          have hxy : x = y := by
            have ht : x.toNat = y.toNat := by omega
            have h2 := congrArg Char.ofNat ht
            rwa [Char.ofNat_toNat, Char.ofNat_toNat] at h2
          subst hxy
          refine ih ys (fun hxy => hne ?_) hf
          rw [hxy]

/-- Python string comparison is irreflexive. -/
theorem strLtB_irrefl (a : String) : strLtB a a = false := dataLtB_irrefl a.data

/-- Python string comparison is transitive. -/
theorem strLtB_trans {a b c : String} (hab : strLtB a b = true)
    (hbc : strLtB b c = true) : strLtB a c = true :=
  dataLtB_trans a.data b.data c.data hab hbc

/-- Distinct strings compare in one direction or the other. -/
theorem strLtB_connex {a b : String} (hne : a ≠ b) (hf : strLtB a b = false) :
    strLtB b a = true :=
  dataLtB_connex a.data b.data (fun h => hne (String.ext h)) hf

/-- Strings that compare strictly are distinct. -/
theorem strLtB_ne {a b : String} (h : strLtB a b = true) : a ≠ b := by
  rintro rfl
  rw [strLtB_irrefl] at h
  exact absurd h (by simp)

/-- Membership after an ordered deduplicating insertion. -/
theorem mem_insSortDedup {x y : String} {l : List String} :
    y ∈ insSortDedup x l ↔ y = x ∨ y ∈ l := by
  induction l with
  | nil => simp [insSortDedup]
  | cons z zs ih =>
    simp only [insSortDedup]
    split_ifs with h1 h2
    · subst h1
      simp only [List.mem_cons]
      tauto
    · simp only [List.mem_cons]
    · simp only [List.mem_cons, ih]
      tauto

/-- Ordered deduplicating insertion preserves strict sortedness. -/
theorem sorted_insSortDedup {x : String} {l : List String}
    (h : SortedLt l) : SortedLt (insSortDedup x l) := by
  induction l with
  | nil => simp [insSortDedup, SortedLt]
  | cons z zs ih =>
    rw [SortedLt, List.pairwise_cons] at h
    obtain ⟨hz, hzs⟩ := h
    simp only [insSortDedup]
    split_ifs with h1 h2
    · exact List.pairwise_cons.mpr ⟨hz, hzs⟩
    · refine List.pairwise_cons.mpr ⟨?_, List.pairwise_cons.mpr ⟨hz, hzs⟩⟩
      intro b hb
      rcases List.mem_cons.mp hb with rfl | hb
      · exact h2
      · exact strLtB_trans h2 (hz b hb)
    · refine List.pairwise_cons.mpr ⟨?_, ih hzs⟩
      intro b hb
      rcases mem_insSortDedup.mp hb with rfl | hb
      · exact strLtB_connex h1 (by simpa using h2)
      · exact hz b hb

/-- The fold building `sorted(set(...))` is sorted and has the same members
as its input together with the accumulator. -/
theorem sortedDedup_go (l : List String) :
    ∀ acc : List String, SortedLt acc →
      SortedLt (l.foldl (fun a x => insSortDedup x a) acc)
        ∧ ∀ y, y ∈ l.foldl (fun a x => insSortDedup x a) acc ↔ y ∈ acc ∨ y ∈ l := by
  induction l with
  | nil => intro acc hacc; simpa using hacc
  | cons x xs ih =>
    intro acc hacc
    obtain ⟨h1, h2⟩ := ih (insSortDedup x acc) (sorted_insSortDedup hacc)
    refine ⟨h1, fun y => ?_⟩
    rw [List.foldl_cons, h2 y, mem_insSortDedup]
    simp only [List.mem_cons]
    tauto

/-- Result of `sorted(set(l))` has no duplicates. -/
theorem sortedDedup_nodup (l : List String) : (sortedDedup l).Nodup :=
  ((sortedDedup_go l [] (by simp [SortedLt])).1).imp (fun h => strLtB_ne h)

/-- Membership in `sorted(set(l))` is membership in `l`. -/
theorem mem_sortedDedup {l : List String} {y : String} :
    y ∈ sortedDedup l ↔ y ∈ l := by
  rw [sortedDedup, (sortedDedup_go l [] (by simp [SortedLt])).2 y]
  simp

/-- C5: for every log text, the MissingModule set is the deduplicated union
of the lowercased captures of the ModuleNotFoundError, ImportError and
distribution-not-found patterns; on the spec's example log it is exactly
the set of foo and bar. -/
theorem C5_module_union :
    (∀ logs : String, (heurMissingList logs).Nodup
      ∧ ∀ m, m ∈ heurMissingList logs ↔
          ∃ c, (c ∈ findall patModuleNotFound logs ∨ c ∈ findall patImportError logs
                  ∨ c ∈ findall patNoDistribution logs) ∧ m = pyLower c)
    ∧ heurMissingList
        "ModuleNotFoundError: No module named 'foo'\nImportError: No module named BAR\n"
        = ["bar", "foo"] := by
  constructor
  · intro logs
    refine ⟨sortedDedup_nodup _, fun m => ?_⟩
    rw [heurMissingList, mem_sortedDedup]
    simp only [List.mem_map, List.mem_append]
    constructor
    · rintro ⟨c, hc, rfl⟩
      exact ⟨c, by tauto, rfl⟩
    · rintro ⟨c, hc, rfl⟩
      exact ⟨c, by tauto, rfl⟩
  · decide

/-- The fold of lines 85-88 equals first-occurrence deduplication. -/
theorem dedupAppend_go (l : List String) :
    ∀ acc : List String,
      l.foldl (fun a h => if h ∈ a then a else a ++ [h]) acc
        = acc ++ keepFirst (l.filter (fun y => y ∉ acc)) := by
  induction l with
  | nil => intro acc; simp [keepFirst]
  | cons h t ih =>
    intro acc
    by_cases hmem : h ∈ acc
    · rw [List.foldl_cons, if_pos hmem, ih, List.filter_cons]
      simp [hmem]
    · rw [List.foldl_cons, if_neg hmem, ih, List.filter_cons]
      simp only [hmem, not_false_eq_true, decide_not, decide_eq_true_eq, if_pos]
      have hk : keepFirst (h :: t.filter (fun y => !decide (y ∈ acc)))
          = h :: keepFirst ((t.filter (fun y => !decide (y ∈ acc))).filter
              (fun y => y ≠ h)) := by
        rw [keepFirst]
      rw [hk, List.append_assoc]
      simp only [List.singleton_append]
      congr 2
      rw [List.filter_filter]
      congr 1
      apply List.filter_congr
      intro a _
      simp only [List.mem_append, List.mem_singleton, decide_not]
      rcases eq_or_ne a h with rfl | hne
      · simp
      · simp [hne, hmem]

/-- C8: for every log text, the MissingHeader list is the header captures in
order of first appearance with duplicates suppressed; on the spec's example
log with a repeated header it is exactly the two distinct headers in order. -/
theorem C8_header_order :
    (∀ logs : String, heurHeaders logs = keepFirst (findall patFatalHeader logs))
    ∧ heurHeaders
        ("fatal error: a/b.h: No such file or directory\n"
          ++ "fatal error: a/b.h: No such file or directory\n"
          ++ "fatal error: c.h: No such file or directory\n")
        = ["a/b.h", "c.h"] := by
  constructor
  · intro logs
    rw [heurHeaders, dedupAppend_go]
    simp
  · decide

/-- Captures of a pattern with an empty capture tail consist of characters
of the pattern's class. -/
theorem tryMatch_capture_cls {p : Pat} (hct : p.capTail = []) {s cap rest : List Char}
    (h : tryMatch p s = some (cap, rest)) : ∀ c ∈ cap, p.cls c = true := by
  unfold tryMatch at h
  split at h
  · exact absurd h (by simp)
  · split at h
    · exact absurd h (by simp)
    · split at h
      · exact absurd h (by simp)
      · split at h
        · exact absurd h (by simp)
        · simp only [Option.some.injEq, Prod.mk.injEq] at h
          obtain ⟨hcap, -⟩ := h
          subst hcap
          intro c hc
          rw [hct, List.append_nil] at hc
          exact List.mem_takeWhile_imp hc

/-- All captures a findall scan collects for a pattern with an empty capture
tail consist of characters of the pattern's class. -/
theorem findall_capture_cls (p : Pat) (hct : p.capTail = []) (logs : String) :
    ∀ cap ∈ findall p logs, ∀ c ∈ cap.data, p.cls c = true := by
  have main : ∀ fuel (s : List Char) (cap : List Char),
      cap ∈ findallAux p fuel s → ∀ c ∈ cap, p.cls c = true := by
    intro fuel
    induction fuel with
    | zero => intro s cap hcap; exact absurd hcap (by simp [findallAux])
    | succ n ih =>
      intro s cap hcap
      match s with
      | [] => exact absurd hcap (by simp [findallAux])
      | c0 :: rest =>
        rw [findallAux] at hcap
        cases htm : tryMatch p (c0 :: rest) with
        | none =>
          rw [htm] at hcap
          exact ih rest cap hcap
        | some pr =>
          rw [htm] at hcap
          rcases List.mem_cons.mp hcap with rfl | hcap
          · exact tryMatch_capture_cls hct htm
          · exact ih pr.2 cap hcap
  intro cap hcap
  obtain ⟨cs, hcs, rfl⟩ := List.mem_map.mp hcap
  exact main _ _ cs hcs

/-- Reading back the code point of a character built from a code point in
the lowercase-letter range. -/
theorem charOfNat_toNat {n : Nat} (h1 : 97 ≤ n) (h2 : n ≤ 122) :
    (Char.ofNat n).toNat = n := by
  have hv : n.isValidChar := Or.inl (by omega)
  simp [Char.ofNat, hv, Char.ofNatAux, Char.toNat, UInt32.toNat]

/-- Lowercasing a character of the class `[A-Za-z0-9_]` lands in `[a-z0-9_]`. -/
theorem pyCharLower_word {c : Char} (h : isWordChar c = true) :
    isLowerWordChar (pyCharLower c) = true := by
  simp only [isWordChar, Bool.or_eq_true, Bool.and_eq_true, decide_eq_true_eq,
    beq_iff_eq] at h
  unfold pyCharLower isLowerWordChar
  split_ifs with hu
  · rw [charOfNat_toNat (by omega) (by omega)]
    simp only [Bool.or_eq_true, Bool.and_eq_true, decide_eq_true_eq, beq_iff_eq]
    omega
  · simp only [Bool.or_eq_true, Bool.and_eq_true, decide_eq_true_eq, beq_iff_eq]
    omega

/-- C10: every module name contributed by the ModuleNotFoundError and
ImportError signatures consists solely of characters in `[a-z0-9_]` after
lowercasing, and a log whose module name contains a dot contributes no entry
at all. -/
theorem C10_module_charset :
    (∀ (logs cap : String),
        cap ∈ findall patModuleNotFound logs ++ findall patImportError logs →
        ∀ c ∈ (pyLower cap).data, isLowerWordChar c = true)
    ∧ heurMissingList "ModuleNotFoundError: No module named 'pkg.sub'" = [] := by
  constructor
  · intro logs cap hcap c hc
    obtain ⟨c0, hc0, rfl⟩ := List.mem_map.mp hc
    rcases List.mem_append.mp hcap with h | h
    · exact pyCharLower_word (findall_capture_cls patModuleNotFound rfl logs cap h c0 hc0)
    · exact pyCharLower_word (findall_capture_cls patImportError rfl logs cap h c0 hc0)
  · decide

/-- Witness for C10 applying the character-set property at a concrete log. -/
theorem C10_module_charset_witness : isLowerWordChar 'f' = true :=
  C10_module_charset.1 "ImportError: No module named Foo" "Foo" (by decide) 'f' (by decide)


/-! ### Shapes of the emitted fragments (C3) -/

/-- An update fragment only arises for the dependency-list file, and only
when it exists. -/
theorem wrp_update {rc : Option String} {m : List String} {rel : String}
    {old new : List String}
    (h : write_requirements_patch rc m = some (Frag.update rel old new)) :
    rel = "requirements.txt" ∧ rc ≠ none := by
  unfold write_requirements_patch at h
  split at h
  · exact absurd h (by simp)
  · split at h
    · simp only [] at h
      split at h
      · exact absurd h (by simp)
      · simp only [Option.some.injEq, Frag.update.injEq] at h
        exact ⟨h.1.symm, by simp_all⟩
    · exact absurd h (by simp)

/-- A new-file fragment for the dependency-list file only arises when it
does not exist. -/
theorem wrp_newFile {rc : Option String} {m : List String} {rel : String}
    {lines : List String}
    (h : write_requirements_patch rc m = some (Frag.newFile rel lines)) :
    rc = none := by
  unfold write_requirements_patch at h
  split at h
  · exact absurd h (by simp)
  · split at h
    · simp only [] at h
      split at h
      · exact absurd h (by simp)
      · exact absurd h (by simp)
    · rfl

/-- The system-deps fragment is always a new-file diff of the advisory file. -/
theorem wsdp_shape {hs : List String} {f : Frag}
    (h : write_system_deps_patch hs = some f) :
    f = Frag.newFile ".fixbot_system_deps.txt"
      ("The following headers were reported missing during CI/compile:" :: hs) := by
  unfold write_system_deps_patch at h
  split at h
  · exact absurd h (by simp)
  · simp only [Option.some.injEq] at h
    exact h.symm

/-- Every emitted fragment is the requirements fragment, the system-deps
fragment, or the notice fragment. -/
theorem mem_heurFrags {rc : Option String} {m hs : List String} {f : Frag}
    (h : f ∈ heurFrags rc m hs) :
    write_requirements_patch rc m = some f
      ∨ write_system_deps_patch hs = some f ∨ f = noticeFrag := by
  unfold heurFrags at h
  simp only [] at h
  split at h
  · simp only [List.mem_singleton] at h
    tauto
  · simp only [List.mem_append, Option.mem_toList, Option.mem_def] at h
    tauto

/-- C3 counterexample: with the advisory file already present under the
repository root and a log reporting a missing header, the generator still
writes a new-file-style diff for that very file. -/
theorem C3_counterexample :
    (heuristics_make_patch
        (fun p => if p = "log" then some "fatal error: a.h: No such file or directory"
                  else if p = "r/.fixbot_system_deps.txt" then some "present" else none)
        "log" "r" "out").map (fun fs1 => fs1 "out")
      = .ok (some ("--- /dev/null\n+++ b/.fixbot_system_deps.txt\n@@ -0,0 +1,2 @@\n"
          ++ "+The following headers were reported missing during CI/compile:\n+a.h\n"))
    ∧ (fun p => if p = "log" then some "fatal error: a.h: No such file or directory"
                else if p = "r/.fixbot_system_deps.txt" then some "present" else none)
        (pyJoin "r" ".fixbot_system_deps.txt") = some "present" := by
  constructor
  · rfl
  · rfl

/-- C3 (amended): the dependency-list fragment is update-style exactly when
the dependency file exists and new-file-style exactly when it does not, while
the advisory and notice fragments are always new-file-style regardless of
whether their targets exist. -/
theorem C3_newfile_iff_absent (rc : Option String) (m hs : List String) :
    (∀ rel old new, Frag.update rel old new ∈ heurFrags rc m hs →
        rel = "requirements.txt" ∧ rc ≠ none)
    ∧ (∀ lines, Frag.newFile "requirements.txt" lines ∈ heurFrags rc m hs →
        rc = none)
    ∧ (∀ f ∈ heurFrags rc m hs, f.relpath ≠ "requirements.txt" →
        ∃ lines, f = Frag.newFile f.relpath lines) := by
  refine ⟨?_, ?_, ?_⟩
  · intro rel old new hmem
    rcases mem_heurFrags hmem with h | h | h
    · exact wrp_update h
    · exact absurd (wsdp_shape h) (by simp)
    · exact absurd h (by simp [noticeFrag])
  · intro lines hmem
    rcases mem_heurFrags hmem with h | h | h
    · exact wrp_newFile h
    · exact absurd (wsdp_shape h) (by simp)
    · exact absurd h (by simp [noticeFrag])
  · intro f hmem hrel
    rcases mem_heurFrags hmem with h | h | h
    · exfalso
      unfold write_requirements_patch at h
      split at h
      · exact absurd h (by simp)
      · split at h
        · simp only [] at h
          split at h
          · exact absurd h (by simp)
          · simp only [Option.some.injEq] at h
            exact hrel (by rw [← h]; rfl)
        · simp only [Option.some.injEq] at h
          exact hrel (by rw [← h]; rfl)
    · rw [wsdp_shape h]
      exact ⟨_, rfl⟩
    · rw [h]
      exact ⟨_, rfl⟩

/-- Witness for C3 at a concrete existing dependency file. -/
theorem C3_newfile_iff_absent_witness : (some "foo" : Option String) ≠ none :=
  ((C3_newfile_iff_absent (some "foo") ["bar"] []).1 "requirements.txt" ["foo"]
    ["foo", "bar"] (by decide)).2


/-! ### Idempotence of the heuristic path (C7) -/

/-- C7 counterexample: with the output path equal to the log path, the first
run overwrites the log with the produced patch, so the second run reads the
patch as its log, finds no signature, and emits the notice patch instead:
the two outputs differ byte for byte.  The repository state has no
pre-existing dependency-list file. -/
theorem C7_counterexample :
    ((heuristics_make_patch
        (fun p => if p = "f" then some "ModuleNotFoundError: No module named 'foo'"
                  else none) "f" "r" "f").bind (fun fs1 =>
      (heuristics_make_patch fs1 "f" "r" "f").map (fun fs2 => (fs1 "f", fs2 "f"))))
      = .ok (some "--- /dev/null\n+++ b/requirements.txt\n@@ -0,0 +1,1 @@\n+foo\n",
             some ("--- /dev/null\n+++ b/.fixbot_notice.txt\n@@ -0,0 +1,2 @@\n"
               ++ "+FixBot could not identify an automatic fix.\n"
               ++ "+See .fixbot_logs.txt for details.\n"))
    ∧ ("--- /dev/null\n+++ b/requirements.txt\n@@ -0,0 +1,1 @@\n+foo\n" : String)
        ≠ ("--- /dev/null\n+++ b/.fixbot_notice.txt\n@@ -0,0 +1,2 @@\n"
               ++ "+FixBot could not identify an automatic fix.\n"
               ++ "+See .fixbot_logs.txt for details.\n") := by
  constructor
  · rfl
  · decide

/-- C7 (amended): provided the output path differs from the log-file path,
two runs of the heuristic path with identical inputs write byte-identical
output patch files (here under the claim's assumption of no pre-existing
dependency-list file, which is not needed for the proof of the second run
reading the same state). -/
theorem C7_idempotent (fs : FS) (logsPath repoRoot outPath : String) (fs1 fs2 : FS)
    (_hreq : fs (pyJoin repoRoot "requirements.txt") = none)
    (hne : outPath ≠ logsPath)
    (h1 : heuristics_make_patch fs logsPath repoRoot outPath = .ok fs1)
    (h2 : heuristics_make_patch fs1 logsPath repoRoot outPath = .ok fs2) :
    fs1 outPath = fs2 outPath := by
  cases hlog : fs logsPath with
  | none => rw [heuristics_make_patch.eq_def, hlog] at h1; exact absurd h1 (by simp)
  | some L =>
    rw [heuristics_make_patch.eq_def, hlog] at h1
    simp only [Except.ok.injEq] at h1
    have hlog1 : fs1 logsPath = some L := by
      rw [← h1]
      simp only [fsSet, fsRemove, if_neg (Ne.symm hne)]
      exact hlog
    rw [heuristics_make_patch.eq_def, hlog1] at h2
    simp only [Except.ok.injEq] at h2
    have hsame : fsRemove outPath fs1 (pyJoin repoRoot "requirements.txt")
        = fsRemove outPath fs (pyJoin repoRoot "requirements.txt") := by
      by_cases hro : pyJoin repoRoot "requirements.txt" = outPath
      · simp [fsRemove, hro]
      · simp only [fsRemove, if_neg hro, ← h1, fsSet]
    rw [← h1, ← h2, hsame]
    simp [fsSet]

/-- Witness for C7 at a concrete log file and distinct output path. -/
theorem C7_idempotent_witness :
    (fsSet "out" (heurText "x" none)
        (fsRemove "out" (fun p => if p = "log" then some "x" else none))) "out"
      = (fsSet "out"
          (heurText "x"
            (fsRemove "out"
              (fsSet "out" (heurText "x" none)
                (fsRemove "out" (fun p => if p = "log" then some "x" else none)))
              "r/requirements.txt"))
          (fsRemove "out"
            (fsSet "out" (heurText "x" none)
              (fsRemove "out" (fun p => if p = "log" then some "x" else none))))) "out" :=
  C7_idempotent (fun p => if p = "log" then some "x" else none) "log" "r" "out"
    (fsSet "out" (heurText "x" none)
      (fsRemove "out" (fun p => if p = "log" then some "x" else none)))
    (fsSet "out"
      (heurText "x"
        (fsRemove "out"
          (fsSet "out" (heurText "x" none)
            (fsRemove "out" (fun p => if p = "log" then some "x" else none)))
          "r/requirements.txt"))
      (fsRemove "out"
        (fsSet "out" (heurText "x" none)
          (fsRemove "out" (fun p => if p = "log" then some "x" else none)))))
    rfl (by decide) rfl rfl


/-! ### Totality of the patch generator (C1) -/

/-- A rendered fragment is never the empty string. -/
theorem render_length_pos (f : Frag) : 0 < (Frag.render f).length := by
  rw [Frag.render, String.length_append]
  have h1 : ("\n" : String).length = 1 := rfl
  omega

/-- Folding string concatenation never shrinks the accumulator. -/
theorem foldl_append_length_le (l : List String) :
    ∀ acc : String, acc.length ≤ (l.foldl (fun r s => r ++ s) acc).length := by
  induction l with
  | nil => intro acc; simp
  | cons x xs ih =>
    intro acc
    calc acc.length ≤ (acc ++ x).length := by simp [String.length_append]
      _ ≤ _ := ih (acc ++ x)

/-- The emitted fragment list is never empty. -/
theorem heurFrags_ne_nil (rc : Option String) (m hs : List String) :
    heurFrags rc m hs ≠ [] := by
  by_cases h : ((write_requirements_patch rc m).toList
      ++ (write_system_deps_patch hs).toList) = []
  · simp [heurFrags, h]
  · simp [heurFrags, h]

/-- The heuristic output text is never empty. -/
theorem heurText_ne_empty (L : String) (rc : Option String) : heurText L rc ≠ "" := by
  have hne := heurFrags_ne_nil rc (heurMissingList L) (heurHeaders L)
  intro hcontra
  cases hfr : heurFrags rc (heurMissingList L) (heurHeaders L) with
  | nil => exact hne hfr
  | cons f rest =>
    have hlen : 0 < (heurText L rc).length := by
      rw [heurText, hfr]
      refine lt_of_lt_of_le ?_ (foldl_append_length_le _ ("" ++ f.render))
      calc 0 < (Frag.render f).length := render_length_pos f
        _ ≤ ("" ++ f.render).length := by simp [String.length_append]
    rw [hcontra] at hlen
    exact absurd hlen (by simp)

/-- C1 counterexample: invoked with a log-file path that does not exist, the
generator raises an uncaught FileNotFoundError, so it neither writes the
output file nor exits 0. -/
theorem C1_counterexample :
    generator_main none none (fun _ => none) "log" "." "out" = .error .fileNotFound := rfl

/-- C1 (amended): provided the log file exists at the given path, every
invocation of the generator writes a non-empty output file and exits 0, and
with no generative credential and no recognizable signature the output is
exactly the notice-file patch. -/
theorem C1_generator_total (gen openaiKey : Option String) (fs : FS)
    (logsPath repoRoot outPath L : String) (hlog : fs logsPath = some L) :
    ∃ fs1, generator_main gen openaiKey fs logsPath repoRoot outPath = .ok (fs1, 0)
      ∧ (∃ t, fs1 outPath = some t ∧ t ≠ "")
      ∧ (truthy openaiKey = false → heurMissingList L = [] → heurHeaders L = [] →
          fs1 outPath = some (Frag.render noticeFrag)) := by
  by_cases hkey : truthy openaiKey = true
  · rcases gen with _ | t
    · refine ⟨fsSet outPath (heurText L (fsRemove outPath fs
          (pyJoin repoRoot "requirements.txt"))) (fsRemove outPath fs), ?_, ?_, ?_⟩
      · simp [generator_main, hkey, hlog, heuristics_make_patch, Except.map]
      · exact ⟨heurText L (fsRemove outPath fs (pyJoin repoRoot "requirements.txt")),
          by simp [fsSet], heurText_ne_empty L _⟩
      · intro hfalse
        rw [hkey] at hfalse
        exact absurd hfalse (by simp)
    · by_cases hts : pyStrip t ≠ ""
      · refine ⟨fsSet outPath (pyStrip t) fs, ?_, ⟨pyStrip t, by simp [fsSet], hts⟩, ?_⟩
        · simp [generator_main, hkey, hlog, hts]
        · intro hfalse
          rw [hkey] at hfalse
          exact absurd hfalse (by simp)
      · refine ⟨fsSet outPath (heurText L (fsRemove outPath fs
            (pyJoin repoRoot "requirements.txt"))) (fsRemove outPath fs), ?_, ?_, ?_⟩
        · simp [generator_main, hkey, hlog, hts, heuristics_make_patch, Except.map]
        · exact ⟨heurText L (fsRemove outPath fs (pyJoin repoRoot "requirements.txt")),
            by simp [fsSet], heurText_ne_empty L _⟩
        · intro hfalse
          rw [hkey] at hfalse
          exact absurd hfalse (by simp)
  · refine ⟨fsSet outPath (heurText L (fsRemove outPath fs
        (pyJoin repoRoot "requirements.txt"))) (fsRemove outPath fs), ?_, ?_, ?_⟩
    · simp [generator_main, hkey, hlog, heuristics_make_patch, Except.map]
    · exact ⟨heurText L (fsRemove outPath fs (pyJoin repoRoot "requirements.txt")),
        by simp [fsSet], heurText_ne_empty L _⟩
    · intro _ hm hh
      have : heurText L (fsRemove outPath fs (pyJoin repoRoot "requirements.txt"))
          = Frag.render noticeFrag := by
        rw [heurText, hm, hh]
        rw [show heurFrags (fsRemove outPath fs (pyJoin repoRoot "requirements.txt")) [] []
            = [noticeFrag] from rfl]
        show "" ++ Frag.render noticeFrag = Frag.render noticeFrag
        exact String.ext (by simp [String.data_append])
      rw [this]
      simp [fsSet]

/-- Witness for C1 at a concrete present log file. -/
theorem C1_generator_total_witness :
    ∃ fs1, generator_main none none
        (fun p => if p = "log" then some "nothing" else none) "log" "." "out"
        = .ok (fs1, 0)
      ∧ (∃ t, fs1 "out" = some t ∧ t ≠ "")
      ∧ (truthy none = false → heurMissingList "nothing" = [] → heurHeaders "nothing" = [] →
          fs1 "out" = some (Frag.render noticeFrag)) :=
  C1_generator_total none none (fun p => if p = "log" then some "nothing" else none)
    "log" "." "out" "nothing" rfl


/-! ### Added lines of the dependency-list update diff (C6)

For an update diff of `old` against `old ++ added`, the matcher's first and
only matching block is the full prefix `old`, so the diff consists of one
equal opcode and one insert opcode, and the plus lines of the rendered hunk
are exactly `added`. -/

/-- A list shares its full length as common prefix with any extension. -/
theorem cpl_append_self : ∀ (a c : List String), cpl a (a ++ c) = a.length
  | [], c => by cases c <;> rfl
  | x :: xs, c => by simp [cpl, cpl_append_self xs c]

/-- Common prefixes are no longer than the left list. -/
theorem cpl_le_length : ∀ (x y : List String), cpl x y ≤ x.length
  | [], [] => Nat.le_refl 0
  | [], _ :: _ => Nat.le_refl 0
  | _ :: _, [] => Nat.zero_le _
  | x :: xs, y :: ys => by
    simp only [cpl, List.length_cons]
    split_ifs
    · exact Nat.succ_le_succ (cpl_le_length xs ys)
    · exact Nat.zero_le _

/-- Capped match lengths never exceed the end of the left range. -/
theorem flmVal_le_ahi (a b : List String) (ahi bhi i j : Nat) :
    flmVal a b ahi bhi i j ≤ ahi :=
  le_trans (min_le_right _ _) (le_trans (min_le_left _ _) (Nat.sub_le _ _))

/-- The scan keeps a best value that no candidate strictly exceeds. -/
theorem foldl_flm_keep (a b : List String) (ahi bhi : Nat)
    (b0 : Nat × Nat × Nat)
    (hb : ∀ p : Nat × Nat, flmVal a b ahi bhi p.1 p.2 ≤ b0.2.2) :
    ∀ R : List (Nat × Nat), R.foldl (flmStep a b ahi bhi) b0 = b0 := by
  intro R
  induction R with
  | nil => rfl
  | cons p ps ih =>
    rw [List.foldl_cons, flmStep, if_neg (not_lt.mpr (hb p))]
    exact ih

/-- A longest-match scan over an empty left range reports a zero match. -/
theorem flm_left_empty (a b : List String) (alo blo bhi : Nat) :
    flm a b alo alo blo bhi = (alo, blo, 0) := by
  unfold flm
  rw [Nat.sub_self]
  rfl

/-- The longest match of a list against an extension of itself is the whole
list at the two starts. -/
theorem flm_self_append (a c : List String) (ha : a ≠ []) :
    flm a (a ++ c) 0 a.length 0 (a ++ c).length = (0, 0, a.length) := by
  obtain ⟨n, hn⟩ : ∃ n, a.length = n + 1 := by
    cases a with
    | nil => exact absurd rfl ha
    | cons x xs => exact ⟨xs.length, rfl⟩
  obtain ⟨m, hm⟩ : ∃ m, (a ++ c).length = m + 1 := by
    rw [List.length_append, hn]
    exact ⟨n + c.length, by omega⟩
  have hnm : n ≤ m := by
    have h1 := List.length_append a c
    omega
  have hval : flmVal a (a ++ c) (n + 1) (m + 1) 0 0 = n + 1 := by
    unfold flmVal
    rw [List.drop_zero, List.drop_zero, cpl_append_self, hn]
    omega
  have hbound : ∀ p : Nat × Nat, flmVal a (a ++ c) (n + 1) (m + 1) p.1 p.2 ≤ n + 1 := by
    intro p
    exact flmVal_le_ahi a (a ++ c) (n + 1) (m + 1) p.1 p.2
  unfold flm
  rw [Nat.sub_zero, Nat.sub_zero, hn, hm, List.range', List.range']
  rw [List.flatMap_cons, List.map_cons, List.cons_append, List.foldl_cons]
  have hinit : flmStep a (a ++ c) (n + 1) (m + 1) (0, 0, 0) (0, 0) = (0, 0, n + 1) := by
    rw [flmStep]
    show (if (0 : Nat) < flmVal a (a ++ c) (n + 1) (m + 1) 0 0
      then ((0 : Nat), (0 : Nat), flmVal a (a ++ c) (n + 1) (m + 1) 0 0)
      else ((0 : Nat), (0 : Nat), (0 : Nat))) = ((0 : Nat), (0 : Nat), n + 1)
    rw [hval, if_pos (by omega)]
  rw [hinit]
  exact foldl_flm_keep a (a ++ c) (n + 1) (m + 1) (0, 0, n + 1) (by simpa using hbound) _

/-- A refinement step over an empty left range yields no blocks. -/
theorem mbAux_left_empty (a b : List String) (n alo blo bhi : Nat) :
    mbAux a b (n + 1) (alo, alo, blo, bhi) = [] := by
  rw [mbAux, flm_left_empty]
  simp

/-- Matching blocks of an empty list against anything: only the sentinel. -/
theorem matchingBlocks_nil (b : List String) :
    matchingBlocks [] b = [(0, b.length, 0)] := by
  unfold matchingBlocks
  simp only [List.length_nil, Nat.zero_add]
  rw [mbAux_left_empty]
  rfl

/-- Matching blocks of a list against an extension of itself: the full
prefix block and the sentinel. -/
theorem matchingBlocks_append (a c : List String) (ha : a ≠ []) :
    matchingBlocks a (a ++ c)
      = [(0, 0, a.length), (a.length, (a ++ c).length, 0)] := by
  have hlen : 0 < a.length := List.length_pos.mpr ha
  unfold matchingBlocks
  rw [show a.length + (a ++ c).length + 1 = (a.length + (a ++ c).length) + 1 from rfl]
  rw [mbAux, flm_self_append a c ha]
  have hne0 : ((0, 0, a.length) : Nat × Nat × Nat).2.2 ≠ 0 := by
    simpa using Nat.pos_iff_ne_zero.mp hlen
  rw [if_neg hne0]
  obtain ⟨k, hk⟩ : ∃ k, a.length + (a ++ c).length = k + 1 :=
    ⟨a.length + (a ++ c).length - 1, by rw [List.length_append]; omega⟩
  rw [hk]
  simp only [Nat.zero_add]
  rw [mbAux_left_empty, mbAux_left_empty]
  rw [show ([] : List (Nat × Nat × Nat)) ++ (0, 0, a.length) :: []
      = [((0 : Nat), (0 : Nat), a.length)] from rfl]
  rw [mergeBlocks, if_pos (by simp)]
  rw [mergeBlocks, if_pos (by simpa using hlen)]
  simp


/-- Opcodes of an empty list against a non-empty one: a single insert. -/
theorem get_opcodes_nil (added : List String) (hadd : added ≠ []) :
    get_opcodes [] added = [⟨.insert, 0, 0, 0, added.length⟩] := by
  have hpos : 0 < added.length := List.length_pos.mpr hadd
  rw [get_opcodes, matchingBlocks_nil, opcodesAux]
  rw [if_neg (by simp), if_neg (by simp), if_pos hpos]
  simp [opcodesAux]

/-- Opcodes of a list against an extension of itself: the equal prefix and
one insert at the end. -/
theorem get_opcodes_append (old added : List String) (hold : old ≠ [])
    (hadd : added ≠ []) :
    get_opcodes old (old ++ added)
      = [⟨.equal, 0, old.length, 0, old.length⟩,
         ⟨.insert, old.length, old.length, old.length, (old ++ added).length⟩] := by
  have hpos : 0 < old.length := List.length_pos.mpr hold
  have hlt : old.length < (old ++ added).length := by
    rw [List.length_append]
    have := List.length_pos.mpr hadd
    omega
  rw [get_opcodes, matchingBlocks_append old added hold, opcodesAux]
  rw [if_neg (by simp), if_neg (by simp), if_neg (by simp), if_pos hpos]
  rw [opcodesAux]
  rw [if_neg (by simp), if_neg (by simp), if_pos (by simpa using hlt)]
  simp [opcodesAux]

/-- Trimming the tail leaves a list whose last opcode is not an equal
untouched. -/
theorem trimLast_of_not_equal (n : Nat) (l : List Opcode) (c : Opcode)
    (h : l.getLast? = some c) (hc : c.tag ≠ Tag.equal) : trimLast n l = l := by
  rw [trimLast, h]
  exact if_neg hc

/-- Grouped opcodes of the empty-against-added comparison. -/
theorem grouped_nil (added : List String) (hadd : added ≠ []) :
    get_grouped_opcodes [] added 3 = [[⟨.insert, 0, 0, 0, added.length⟩]] := by
  rw [get_grouped_opcodes, get_opcodes_nil added hadd]
  rw [if_neg (by simp)]
  rw [trimHead, if_neg (by simp)]
  rw [trimLast_of_not_equal 3 [⟨.insert, 0, 0, 0, added.length⟩]
    ⟨.insert, 0, 0, 0, added.length⟩ rfl (by simp)]
  rw [groupAux, if_neg (by simp)]
  rw [groupAux]
  rw [if_pos (by simp)]
  simp

/-- Grouped opcodes of the prefix-plus-insert comparison: one group holding
the trimmed equal context and the insert. -/
theorem grouped_append (old added : List String) (hold : old ≠ []) (hadd : added ≠ []) :
    get_grouped_opcodes old (old ++ added) 3
      = [[⟨.equal, max 0 (old.length - 3), old.length,
            max 0 (old.length - 3), old.length⟩,
          ⟨.insert, old.length, old.length, old.length, (old ++ added).length⟩]] := by
  rw [get_grouped_opcodes, get_opcodes_append old added hold hadd]
  rw [if_neg (by simp)]
  rw [trimHead, if_pos (by simp)]
  dsimp only
  rw [trimLast_of_not_equal 3
    [⟨Tag.equal, max 0 (old.length - 3), old.length, max 0 (old.length - 3), old.length⟩,
     ⟨.insert, old.length, old.length, old.length, (old ++ added).length⟩]
    ⟨.insert, old.length, old.length, old.length, (old ++ added).length⟩ rfl (by simp)]
  rw [groupAux, if_neg (by rintro ⟨-, hcon⟩; simp at hcon; omega)]
  rw [groupAux, if_neg (by simp)]
  rw [groupAux]
  rw [if_pos (by simp)]
  simp


/-- Rendered lines of the empty-against-added diff. -/
theorem unified_lines_nil (added : List String) (ff tf : String) (hadd : added ≠ []) :
    unified_diff_lines [] added ff tf
      = ["--- " ++ ff, "+++ " ++ tf, hunkHeader [⟨.insert, 0, 0, 0, added.length⟩]]
        ++ added.map (fun l => "+" ++ l) := by
  rw [unified_diff_lines, grouped_nil added hadd]
  rw [if_neg (by simp)]
  simp [groupLines, slice, List.take_length]

/-- Rendered lines of the prefix-against-extension diff: headers, hunk
header, up to three context lines, then the added lines. -/
theorem unified_lines_append (old added : List String) (ff tf : String)
    (hold : old ≠ []) (hadd : added ≠ []) :
    unified_diff_lines old (old ++ added) ff tf
      = ["--- " ++ ff, "+++ " ++ tf,
          hunkHeader [⟨.equal, max 0 (old.length - 3), old.length,
            max 0 (old.length - 3), old.length⟩,
          ⟨.insert, old.length, old.length, old.length, (old ++ added).length⟩]]
        ++ (slice old (max 0 (old.length - 3)) old.length).map (fun l => " " ++ l)
        ++ added.map (fun l => "+" ++ l) := by
  rw [unified_diff_lines, grouped_append old added hold hadd]
  rw [if_neg (by simp)]
  simp only [List.flatMap_cons, List.flatMap_nil, List.append_nil, groupLines, slice]
  rw [show ((old ++ added).drop old.length) = added from List.drop_left old added]
  rw [show (old ++ added).length - old.length = added.length
      from by rw [List.length_append]; omega]
  rw [List.take_length]
  simp

/-- A line whose first character is not a plus is not an added line. -/
theorem isPlusLine_false_of_take1 (s : String) (c : Char) (hc : c ≠ '+')
    (h : s.data.take 1 = [c]) : isPlusLine s = false := by
  rw [isPlusLine, h]
  have hbeq : ([c] == ['+']) = false := by
    simp [hc]
  rw [hbeq]
  rfl

/-- The head of a concatenation is the head of its nonempty left part. -/
theorem take1_append_left (A B : String) (c : Char) (h : A.data.take 1 = [c]) :
    (A ++ B).data.take 1 = [c] := by
  rw [String.data_append]
  cases hA : A.data with
  | nil => rw [hA] at h; simp at h
  | cons x xs =>
    rw [hA] at h
    simp only [List.take_succ_cons, List.take_zero] at h
    rw [List.cons_append]
    simpa using h

/-- Context lines are not added lines. -/
theorem isPlusLine_space (x : String) : isPlusLine (" " ++ x) = false :=
  isPlusLine_false_of_take1 _ ' ' (by decide) (by rw [String.data_append]; rfl)

/-- The from-file header is not an added line. -/
theorem isPlusLine_dash (ff : String) : isPlusLine ("--- " ++ ff) = false :=
  isPlusLine_false_of_take1 _ '-' (by decide) (by rw [String.data_append]; rfl)

/-- The to-file header starts with three pluses and is excluded. -/
theorem isPlusLine_plus3 (tf : String) : isPlusLine ("+++ " ++ tf) = false := by
  rw [isPlusLine]
  have h3 : ("+++ " ++ tf).data.take 3 = ['+', '+', '+'] := by
    rw [String.data_append]
    rfl
  rw [h3]
  simp

/-- A hunk header of a nonempty group is not an added line. -/
theorem isPlusLine_hunk (g : List Opcode) (hg : g ≠ []) :
    isPlusLine (hunkHeader g) = false := by
  obtain ⟨x, xs, rfl⟩ := List.exists_cons_of_ne_nil hg
  cases hl : (x :: xs).getLast? with
  | none => simp at hl
  | some last =>
    rw [hunkHeader]
    rw [show (x :: xs).head? = some x from rfl, hl]
    exact isPlusLine_false_of_take1 _ '@' (by decide)
      (take1_append_left _ _ _ (take1_append_left _ _ _ (take1_append_left _ _ _
        (take1_append_left _ _ _ rfl))))

/-- Filtering the context block keeps nothing. -/
theorem filter_isPlusLine_space (l : List String) :
    (l.map (fun x => " " ++ x)).filter isPlusLine = [] := by
  induction l with
  | nil => rfl
  | cons x xs ih => simp [List.filter_cons, isPlusLine_space, ih]

/-- An added line with a plus prefix is kept, provided the line itself does
not begin with two pluses. -/
theorem isPlusLine_plus (m : String) (h2 : m.data.take 2 ≠ ['+', '+']) :
    isPlusLine ("+" ++ m) = true := by
  rw [isPlusLine]
  have h1 : ("+" ++ m).data.take 1 = ['+'] := by rw [String.data_append]; rfl
  have h3 : ("+" ++ m).data.take 3 = '+' :: m.data.take 2 := by
    rw [String.data_append]
    rfl
  rw [h1, h3]
  have e1 : ((['+'] : List Char) == ['+']) = true := rfl
  rw [e1, Bool.true_and]
  simp only [bne_iff_ne, ne_eq, List.cons.injEq, true_and]
  exact h2

/-- Filtering the added block keeps everything, and stripping the plus signs
recovers the added lines. -/
theorem filter_map_added (added : List String)
    (hplus : ∀ m ∈ added, m.data.take 2 ≠ ['+', '+']) :
    ((added.map (fun l => "+" ++ l)).filter isPlusLine).map
        (fun l => (⟨l.data.drop 1⟩ : String)) = added := by
  induction added with
  | nil => rfl
  | cons m ms ih =>
    have hm := isPlusLine_plus m (hplus m (by simp))
    have hdrop : (⟨("+" ++ m).data.drop 1⟩ : String) = m := by
      rw [String.data_append]
      rfl
    simp only [List.map_cons, List.filter_cons, hm, if_pos, List.map_cons, hdrop]
    rw [ih (fun x hx => hplus x (by simp [hx]))]

/-- Added lines of a unified diff of a list against its extension are
exactly the appended lines. -/
theorem diffAddedLines_unified (old added : List String) (ff tf : String)
    (hadd : added ≠ []) (hplus : ∀ m ∈ added, m.data.take 2 ≠ ['+', '+']) :
    diffAddedLines (unified_diff_lines old (old ++ added) ff tf) = added := by
  cases old with
  | nil =>
    have hhunk : isPlusLine (hunkHeader [⟨.insert, 0, 0, 0, added.length⟩]) = false :=
      isPlusLine_hunk [⟨.insert, 0, 0, 0, added.length⟩] (by simp)
    rw [List.nil_append, unified_lines_nil added ff tf hadd, diffAddedLines]
    rw [show (["--- " ++ ff, "+++ " ++ tf,
        hunkHeader [⟨.insert, 0, 0, 0, added.length⟩]]
        ++ added.map (fun l => "+" ++ l)).filter isPlusLine
      = ((added.map (fun l => "+" ++ l)).filter isPlusLine) from by
        simp [List.filter_cons, isPlusLine_dash, isPlusLine_plus3, hhunk]]
    exact filter_map_added added hplus
  | cons x xs =>
    rw [unified_lines_append (x :: xs) added ff tf (by simp) hadd, diffAddedLines]
    rw [show ((["--- " ++ ff, "+++ " ++ tf,
        hunkHeader [⟨.equal, max 0 ((x :: xs).length - 3), (x :: xs).length,
          max 0 ((x :: xs).length - 3), (x :: xs).length⟩,
        ⟨.insert, (x :: xs).length, (x :: xs).length, (x :: xs).length,
          ((x :: xs) ++ added).length⟩]]
        ++ (slice (x :: xs) (max 0 ((x :: xs).length - 3)) (x :: xs).length).map
            (fun l => " " ++ l)
        ++ added.map (fun l => "+" ++ l)).filter isPlusLine)
      = ((added.map (fun l => "+" ++ l)).filter isPlusLine) from by
        simp [List.filter_append, List.filter_cons, isPlusLine_dash, isPlusLine_plus3,
          isPlusLine_hunk, filter_isPlusLine_space]]
    exact filter_map_added added hplus


/-- Word-class characters are distribution-class characters. -/
theorem isWordChar_isDistChar {c : Char} (h : isWordChar c = true) :
    isDistChar c = true := by
  simp [isDistChar, h]

/-- Lowercasing a distribution-class character never yields a plus sign. -/
theorem pyCharLower_ne_plus {c : Char} (h : isDistChar c = true) :
    pyCharLower c ≠ '+' := by
  simp only [isDistChar, isWordChar, Bool.or_eq_true, Bool.and_eq_true,
    decide_eq_true_eq, beq_iff_eq] at h
  unfold pyCharLower
  split_ifs with hu
  · intro hcon
    have ht := charOfNat_toNat (n := c.toNat + 32) (by omega) (by omega)
    rw [hcon] at ht
    have h43 : ('+' : Char).toNat = 43 := rfl
    rw [h43] at ht
    omega
  · intro hcon
    subst hcon
    revert h
    decide

/-- No detected module name begins with two plus signs (none even contains
a plus). -/
theorem heurMissingList_no_plus (logs : String) :
    ∀ m ∈ heurMissingList logs, m.data.take 2 ≠ ['+', '+'] := by
  intro m hm hcon
  have hplusmem : '+' ∈ m.data := by
    have h1 : '+' ∈ m.data.take 2 := by rw [hcon]; simp
    exact List.mem_of_mem_take h1
  rw [heurMissingList, mem_sortedDedup] at hm
  obtain ⟨c, hc, rfl⟩ := List.mem_map.mp hm
  have hdata : (pyLower c).data = c.data.map pyCharLower := rfl
  rw [hdata] at hplusmem
  obtain ⟨c0, hc00, hl⟩ := List.mem_map.mp hplusmem
  have hcls : isDistChar c0 = true := by
    rcases List.mem_append.mp hc with h12 | h3
    · rcases List.mem_append.mp h12 with h1 | h2
      · exact isWordChar_isDistChar
          (findall_capture_cls patModuleNotFound rfl logs c h1 c0 hc00)
      · exact isWordChar_isDistChar
          (findall_capture_cls patImportError rfl logs c h2 c0 hc00)
    · exact findall_capture_cls patNoDistribution rfl logs c h3 c0 hc00
  exact pyCharLower_ne_plus hcls hl

/-- C6: with a pre-existing dependency-list file and a non-empty detected
module set, the added lines of the emitted update diff are exactly the
missing modules not equal to any trimmed existing line; when that subset is
empty no fragment is emitted; and on the spec's example (existing content
foo, detection foo and bar) the only added line is bar. -/
theorem C6_added_lines (logs content : String) (_hm : heurMissingList logs ≠ []) :
    (reqAdded (heurMissingList logs) content = [] →
      write_requirements_patch (some content) (heurMissingList logs) = none)
    ∧ (reqAdded (heurMissingList logs) content ≠ [] →
        write_requirements_patch (some content) (heurMissingList logs)
          = some (Frag.update "requirements.txt" (pySplitlines content)
              (pySplitlines content ++ reqAdded (heurMissingList logs) content))
        ∧ diffAddedLines ((Frag.update "requirements.txt" (pySplitlines content)
              (pySplitlines content ++ reqAdded (heurMissingList logs) content)).renderLines)
            = reqAdded (heurMissingList logs) content)
    ∧ (write_requirements_patch (some "foo") ["bar", "foo"]
        = some (Frag.update "requirements.txt" ["foo"] ["foo", "bar"])
      ∧ diffAddedLines ((Frag.update "requirements.txt" ["foo"]
          ["foo", "bar"]).renderLines) = ["bar"]) := by
  refine ⟨?_, ?_, ?_, ?_⟩
  · intro hempty
    have he : (heurMissingList logs).filter
        (fun m => m ∉ (pySplitlines content).map pyStrip) = [] := hempty
    unfold write_requirements_patch
    rw [if_neg _hm]
    show (if (heurMissingList logs).filter
        (fun m => m ∉ (pySplitlines content).map pyStrip) = []
      then (none : Option Frag)
      else some (Frag.update "requirements.txt" (pySplitlines content)
        (pySplitlines content ++ (heurMissingList logs).filter
          (fun m => m ∉ (pySplitlines content).map pyStrip)))) = none
    rw [if_pos he]
  · intro hne
    constructor
    · have he : ¬(heurMissingList logs).filter
          (fun m => m ∉ (pySplitlines content).map pyStrip) = [] := hne
      unfold write_requirements_patch
      rw [if_neg _hm]
      show (if (heurMissingList logs).filter
          (fun m => m ∉ (pySplitlines content).map pyStrip) = []
        then (none : Option Frag)
        else some (Frag.update "requirements.txt" (pySplitlines content)
          (pySplitlines content ++ (heurMissingList logs).filter
            (fun m => m ∉ (pySplitlines content).map pyStrip))))
        = some (Frag.update "requirements.txt" (pySplitlines content)
            (pySplitlines content ++ reqAdded (heurMissingList logs) content))
      rw [if_neg he]
      rfl
    · exact diffAddedLines_unified (pySplitlines content)
        (reqAdded (heurMissingList logs) content) _ _ hne
        (fun m hmm => heurMissingList_no_plus logs m (List.mem_of_mem_filter hmm))
  · decide
  · decide

/-- Witness for C6 on the spec's example log and dependency file. -/
theorem C6_added_lines_witness :
    diffAddedLines ((Frag.update "requirements.txt" (pySplitlines "foo")
        (pySplitlines "foo"
          ++ reqAdded (heurMissingList ("ModuleNotFoundError: No module named 'foo'\n"
              ++ "ImportError: No module named BAR\n")) "foo")).renderLines)
      = reqAdded (heurMissingList ("ModuleNotFoundError: No module named 'foo'\n"
          ++ "ImportError: No module named BAR\n")) "foo" :=
  ((C6_added_lines ("ModuleNotFoundError: No module named 'foo'\n"
      ++ "ImportError: No module named BAR\n") "foo" (by decide)).2.1 (by decide)).2

end FixBot
